import Mathlib

/-!
Verification of Upload-Assistant's two core components against their source:

* `src/radarr.py` — the movie-record matcher (`_normalize_tokens`,
  `_match_movie_from_filename`, `extract_movie_data`, `sceneNaming`);
* `src/naming.py` — the scene-name normalizer (`apply_preferred_scene_name`
  and its helpers).

The Python code is dynamically typed, so we embed Python values shallowly as
the inductive `PyVal` (None / bool / int / str / list / dict with string keys;
tuples and sets are represented as lists, which is faithful for every
behaviour exercised here since the source only tests
`isinstance(x, (list, tuple, set))` and iterates).  Dictionaries are
association lists; first binding wins, as in a Python dict.

Operations that can raise in Python (attribute access on a non-dict,
`int()` on a malformed string) are embedded in `Except String`; the error
string records the Python exception class.  String primitives (`strip`,
`lower`, `replace`, `split`, `pathlib` name/stem/parent, `os.path.splitext`,
`int`) are re-implemented below following the CPython reference semantics,
restricted to the ASCII fragment (`lower` and whitespace handling are
modelled on ASCII; none of the verified properties depend on non-ASCII
case mapping). Paths are modelled with POSIX separators, matching the
platform the code and its tests run on.
-/

/-- A dynamically typed Python value, as used by the Upload-Assistant code. -/
inductive PyVal where
  | none : PyVal
  | bool : Bool → PyVal
  | int : Int → PyVal
  | str : String → PyVal
  | list : List PyVal → PyVal
  | dict : List (String × PyVal) → PyVal

namespace PyVal

/-- Python truthiness (`bool(v)`) for the embedded values. -/
def isTruthy : PyVal → Bool
  | .none => false
  | .bool b => b
  | .int n => n != 0
  | .str s => s ≠ ""
  | .list xs => !xs.isEmpty
  | .dict xs => !xs.isEmpty

/-- `isinstance(v, dict)`. -/
def isDict : PyVal → Bool
  | .dict _ => true
  | _ => false

/-- `isinstance(v, list)`. -/
def isList : PyVal → Bool
  | .list _ => true
  | _ => false

/-- `isinstance(v, str)`. -/
def isStr : PyVal → Bool
  | .str _ => true
  | _ => false

end PyVal

/-- First-match lookup in an association list (a Python dict's items). -/
def assocLookup : List (String × PyVal) → String → Option PyVal
  | [], _ => Option.none
  | (k, v) :: rest, key => if k = key then Option.some v else assocLookup rest key

/-- `d[k] = v` on a dict's items: replace the first binding of `k`, or append. -/
def assocSet : List (String × PyVal) → String → PyVal → List (String × PyVal)
  | [], key, v => [(key, v)]
  | (k, w) :: rest, key, v =>
    if k = key then (k, v) :: rest else (k, w) :: assocSet rest key v

/-- `v.get(key, default)`.  Raises `AttributeError` when `v` is not a dict,
exactly as Python does for the non-dict values flowing through this code. -/
def pyGet (v : PyVal) (key : String) (default : PyVal) : Except String PyVal :=
  match v with
  | .dict items => .ok ((assocLookup items key).getD default)
  | _ => .error "AttributeError: object has no attribute get"

/-- Total dict lookup used on the specification side: `None` when the key is
absent or the value is not a dict. -/
def pyLookupD (v : PyVal) (key : String) (default : PyVal) : PyVal :=
  match v with
  | .dict items => (assocLookup items key).getD default
  | _ => default

/-- Python `a or b` specialised to the pattern `x or {}` used in the source. -/
def pyOrElse (v fallback : PyVal) : PyVal :=
  if v.isTruthy then v else fallback

/-! ### Python string primitives (ASCII fragment) -/

/-- The characters Python's `str.strip()` / `str.isspace()` treat as
whitespace, restricted to ASCII. -/
def isPySpace (c : Char) : Bool :=
  c = ' ' || c = '\t' || c = '\n' || c = '\x0d' || c = '\x0b' || c = '\x0c'

/-- `str.strip()` (ASCII whitespace). -/
def pyStrip (s : String) : String :=
  ⟨((s.data.dropWhile isPySpace).reverse.dropWhile isPySpace).reverse⟩

/-- ASCII `str.lower()`. -/
def pyLowerChar (c : Char) : Char :=
  if 'A' ≤ c ∧ c ≤ 'Z' then Char.ofNat (c.toNat + 32) else c

/-- ASCII `str.lower()` on a string. -/
def pyLower (s : String) : String :=
  ⟨s.data.map pyLowerChar⟩

/-- Left-to-right, non-overlapping replacement of a non-empty pattern, the
semantics of Python's `str.replace` (the fuel is the input length; every
pattern used by the source is non-empty). -/
def pyReplaceAux (pat rep : List Char) : Nat → List Char → List Char
  | _, [] => []
  | 0, s => s
  | fuel + 1, c :: cs =>
    if pat ≠ [] ∧ pat.isPrefixOf (c :: cs) then
      rep ++ pyReplaceAux pat rep fuel ((c :: cs).drop pat.length)
    else
      c :: pyReplaceAux pat rep fuel cs

/-- `s.replace(pat, rep)` for a non-empty `pat`. -/
def pyReplace (s pat rep : String) : String :=
  ⟨pyReplaceAux pat.data rep.data s.data.length s.data⟩

/-- `s.split(sep)` for a single-character separator, keeping empty pieces,
as Python's `str.split(",")` does. -/
def splitOnChar (sep : Char) : List Char → List (List Char)
  | [] => [[]]
  | c :: cs =>
    match splitOnChar sep cs with
    | [] => [[]]
    | piece :: rest => if c = sep then [] :: piece :: rest else (c :: piece) :: rest

/-- `s.split(sep)` on strings. -/
def pySplit (s : String) (sep : Char) : List String :=
  (splitOnChar sep s.data).map (fun cs => ⟨cs⟩)

/-- Index of the last occurrence of `c`, i.e. Python's `s.rfind(c)`
(`Option.none` for "not found"). -/
def lastIdxOf (c : Char) (cs : List Char) : Option Nat :=
  match cs.reverse.findIdx? (· = c) with
  | Option.none => Option.none
  | Option.some i => Option.some (cs.length - 1 - i)

/-! ### `pathlib.PurePosixPath` fragment

`_normalize_tokens` relies on `Path(s).name`, `.stem`, `.parent` and the
comparison `path.parent != path`.  `PurePosixPath` parses a path into
components, dropping empty components and `"."`; `.name` is the last
component (empty for `"."`, `""` and `"/"`); `.parent` drops the last
component, so `parent != path` holds exactly when the component list is
non-empty; `.stem` cuts the name at its last dot `i` when `0 < i < len - 1`.
-/

/-- The non-root components of `PurePosixPath(s)`. -/
def pathParts (s : String) : List String :=
  (pySplit s '/').filter (fun p => p ≠ "" && p ≠ ".")

/-- `PurePosixPath(s).name`. -/
def pathName (s : String) : String :=
  ((pathParts s).getLast?).getD ""

/-- `PurePosixPath` `.stem` of a final component `name`. -/
def pathStemOfName (name : String) : String :=
  match lastIdxOf '.' name.data with
  | Option.none => name
  | Option.some i =>
    if 0 < i ∧ i < name.data.length - 1 then ⟨name.data.take i⟩ else name

/-- `PurePosixPath(s).stem`. -/
def pathStem (s : String) : String :=
  pathStemOfName (pathName s)

/-- `PurePosixPath(s).parent != PurePosixPath(s)`. -/
def pathParentDistinct (s : String) : Bool :=
  !(pathParts s).isEmpty

/-- `PurePosixPath(s).parent.name`. -/
def pathParentName (s : String) : String :=
  (((pathParts s).dropLast).getLast?).getD ""

/-- `os.path.splitext` (POSIX): the extension starts at the last dot of the
final path component, unless every character before that dot in the
component is itself a dot. -/
def pySplitext (s : String) : String × String :=
  let cs := s.data
  let sepIdx : Nat := match lastIdxOf '/' cs with
    | Option.none => 0
    | Option.some i => i + 1
  match lastIdxOf '.' cs with
  | Option.none => (s, "")
  | Option.some dotIdx =>
    if sepIdx ≤ dotIdx ∧ ((cs.drop sepIdx).take (dotIdx - sepIdx)).any (· ≠ '.') then
      (⟨cs.take dotIdx⟩, ⟨cs.drop dotIdx⟩)
    else
      (s, "")

/-- Python's `int(s)` digit-run check: non-empty, decimal digits, single
underscores allowed strictly between digits. -/
def pyDigitsOk : List Char → Bool
  | [] => false
  | [c] => c.isDigit
  | c :: '_' :: rest => c.isDigit && pyDigitsOk rest
  | c :: d :: rest => c.isDigit && pyDigitsOk (d :: rest)

/-- Value of a valid digit run (`Option.none` models the `ValueError`). -/
def pyIntDigits (cs : List Char) : Option Nat :=
  if pyDigitsOk cs then
    Option.some ((cs.filter (· ≠ '_')).foldl (fun acc c => acc * 10 + (c.toNat - '0'.toNat)) 0)
  else Option.none

/-- `int(s)` on a Python string. -/
def pyInt (s : String) : Option Int :=
  let t := (pyStrip s).data
  match t with
  | '+' :: rest => (pyIntDigits rest).map Int.ofNat
  | '-' :: rest => (pyIntDigits rest).map (fun n => -(Int.ofNat n))
  | _ => (pyIntDigits t).map Int.ofNat

/-- Case-insensitive `str.endswith`, as in
`new_name.lower().endswith(ext.lower())`. -/
def pyEndsWithCI (s suffix : String) : Bool :=
  (pyLower suffix).data.isSuffixOf (pyLower s).data

/-! ### `src/radarr.py` — the movie record matcher -/

/-- `_normalize_tokens(value)`: the comparable token set (here: list with
set-membership semantics) for a filesystem path or name. -/
def normalizeTokens (value : PyVal) : List String :=
  match value with
  | .str s =>
    let stripped := pyStrip s
    if stripped = "" then []
    else
      let parts :=
        [pyLower (pathName stripped)]
          ++ (if pathStem stripped ≠ "" then [pyLower (pathStem stripped)] else [])
          ++ (if pathParentDistinct stripped then [pyLower (pathParentName stripped)] else [])
      pyLower stripped :: parts.filter (· ≠ "")
  | _ => []

/-- The six path-like values a candidate contributes to matching
(`movieFile.originalFilePath`, `movieFile.path`, `movieFile.relativePath`,
`path`, `folder`, `folderName`), with the `or {}` fallback of the source. -/
def candidateValues (item : PyVal) : Except String (List PyVal) := do
  let movieFileRaw ← pyGet item "movieFile" .none
  let movie_file := pyOrElse movieFileRaw (.dict [])
  let v1 ← pyGet movie_file "originalFilePath" .none
  let v2 ← pyGet movie_file "path" .none
  let v3 ← pyGet movie_file "relativePath" .none
  let v4 ← pyGet item "path" .none
  let v5 ← pyGet item "folder" .none
  let v6 ← pyGet item "folderName" .none
  return [v1, v2, v3, v4, v5, v6]

/-- Union of the normalized tokens of a candidate's path-like values. -/
def candidateTokens (item : PyVal) : Except String (List String) := do
  let vals ← candidateValues item
  return vals.foldl (fun acc v => acc ++ normalizeTokens v) []

/-- `target_tokens & candidate_tokens` non-emptiness. -/
def tokensIntersect (a b : List String) : Bool :=
  a.any (fun t => b.contains t)

/-- The `for item in radarr_data` loop of `_match_movie_from_filename`. -/
def findMatchingMovie (target : List String) : List PyVal → Except String PyVal
  | [] => .ok .none
  | item :: rest => do
    let toks ← candidateTokens item
    if tokensIntersect target toks then .ok item else findMatchingMovie target rest

/-- `_match_movie_from_filename(radarr_data, filename)`. -/
def matchMovieFromFilename (radarr_data : List PyVal) (filename : PyVal) : Except String PyVal :=
  if ¬ filename.isTruthy then .ok .none
  else
    let target := normalizeTokens filename
    if target.isEmpty then .ok .none
    else findMatchingMovie target radarr_data

/-- The `imdb_id` entry of `extract_movie_data`'s result:
`int(movie.get("imdbId", "tt0").replace("tt", "")) if movie.get("imdbId") else None`. -/
def imdbIdOf (movie : PyVal) : Except String PyVal := do
  let raw ← pyGet movie "imdbId" .none
  if raw.isTruthy then do
    let v ← pyGet movie "imdbId" (.str "tt0")
    match v with
    | .str s =>
      match pyInt (pyReplace s "tt" "") with
      | Option.some n => .ok (.int n)
      | Option.none => .error "ValueError: invalid literal for int"
    | _ => .error "AttributeError: object has no attribute replace"
  else
    .ok .none

/-- The `release_group` entry of `extract_movie_data`'s result. -/
def releaseGroupOf (movie : PyVal) : Except String PyVal := do
  let mf ← pyGet movie "movieFile" .none
  if mf.isTruthy then do
    let rg ← pyGet mf "releaseGroup" .none
    if rg.isTruthy then .ok rg else .ok .none
  else .ok .none

/-- The fixed-shape dictionary `extract_movie_data` returns. -/
structure ExtractResult where
  imdb_id : PyVal
  tmdb_id : PyVal
  year : PyVal
  genres : PyVal
  release_group : PyVal
  movie : PyVal

/-- The all-null/empty result returned for empty or non-list input. -/
def emptyExtractResult : ExtractResult :=
  ⟨.none, .none, .none, .list [], .none, .none⟩

/-- `extract_movie_data(radarr_data, filename)` (the `async` wrapper adds no
behaviour; the guard `not radarr_data or not isinstance(radarr_data, list) or
len(radarr_data) == 0` holds exactly when the input is not a non-empty
list). -/
def extractMovieData (radarr_data filename : PyVal) : Except String ExtractResult :=
  match radarr_data with
  | .list (x :: xs) => do
    let matched ← matchMovieFromFilename (x :: xs) filename
    let movie := if matched.isTruthy then matched else x
    let release_group ← releaseGroupOf movie
    let imdb ← imdbIdOf movie
    let tmdb ← pyGet movie "tmdbId" .none
    let year ← pyGet movie "year" .none
    let genres ← pyGet movie "genres" (.list [])
    return ⟨imdb, tmdb, year, genres, release_group, movie⟩
  | _ => .ok emptyExtractResult

/-- `sceneNaming(movie_data)` from `src/radarr.py`. -/
def sceneNaming (movie_data : PyVal) : Except String (Option String) :=
  if ¬ movie_data.isDict then .ok Option.none
  else do
    let mfRaw ← pyGet movie_data "movieFile" .none
    let movie_file := pyOrElse mfRaw (.dict [])
    let sn ← pyGet movie_file "sceneName" .none
    match sn with
    | .str s =>
      let t := pyStrip s
      .ok (if t = "" then Option.none else Option.some t)
    | _ => .ok Option.none

/-! ### `src/naming.py` — the scene-name normalizer -/

/-- `DEFAULT_STRIP_CHARS`. -/
def DEFAULT_STRIP_CHARS : List String := ["\x7b", "\x7d", "[", "]", "(", ")"]

/-- `DEFAULT_SPACE_REPLACEMENT`. -/
def DEFAULT_SPACE_REPLACEMENT : String := "."

/-- `DEFAULT_STRIP_CHARS` as the Python tuple value used as a `dict.get`
default. -/
def defaultStripCharsVal : PyVal := .list (DEFAULT_STRIP_CHARS.map PyVal.str)

/-- `_apply_scene_token_normalization`: the replacement table
`{"DD+": "DDP", "HDR.": "HDR10."}` applied in insertion order. -/
def applySceneTokenNormalization (scene_name : String) : String :=
  pyReplace (pyReplace scene_name "DD+" "DDP") "HDR." "HDR10."

/-- `_sanitize_scene_name(scene_name, replacement=..., strip_chars=...)`. -/
def sanitizeSceneName (scene_name : String) (replacement : Option String)
    (strip_chars : List String) : String :=
  let s :=
    if strip_chars.isEmpty then scene_name
    else strip_chars.foldl (fun acc ch => if ch ≠ "" then pyReplace acc ch "" else acc) scene_name
  match replacement with
  | Option.some r => pyReplace s " " r
  | Option.none => s

/-- `_append_original_extension(original_name, new_name)`. -/
def appendOriginalExtension (original_name : PyVal) (new_name : String) : String :=
  match original_name with
  | .str s =>
    let ext := (pySplitext (pyStrip s)).2
    if ext ≠ "" ∧ ¬ pyEndsWithCI new_name ext then new_name ++ ext else new_name
  | _ => new_name

/-- `_extract_radarr_scene_name(radarr_data)`.  Modelled with the
`src.radarr.sceneNaming` import available; when that import fails the
fallback body computes the same answer and raises at the same inputs, so
the two runtime configurations are observationally equal. -/
def extractRadarrSceneName (radarr_data : PyVal) : Except String (Option String) := do
  let viaRadarr ← sceneNaming radarr_data
  match viaRadarr with
  | Option.some s => .ok (Option.some s)
  | Option.none =>
    let base := pyOrElse radarr_data (.dict [])
    let mfRaw ← pyGet base "movieFile" .none
    let movie_file := pyOrElse mfRaw (.dict [])
    let sn ← pyGet movie_file "sceneName" .none
    match sn with
    | .str s =>
      let t := pyStrip s
      .ok (if t = "" then Option.none else Option.some t)
    | _ => .ok Option.none

/-- The `strip_chars` configuration-resolution block inside
`apply_preferred_scene_name` (lines 98–115 of `src/naming.py`), factored as
a function of the configured value. -/
def resolveStripChars (strip_chars_config : PyVal) : List String :=
  match strip_chars_config with
  | .list items =>
    items.filterMap (fun v =>
      match v with
      | .str s => if s ≠ "" then Option.some s else Option.none
      | _ => Option.none)
  | .str s =>
    let stripped := pyStrip s
    let parsed :=
      if stripped.data.contains ',' then
        (pySplit stripped ',').filterMap (fun item =>
          let t := pyStrip item
          if t ≠ "" then Option.some t else Option.none)
      else
        (stripped.data.filter (fun c => ¬ isPySpace c)).map (fun c => String.mk [c])
    if parsed.isEmpty then DEFAULT_STRIP_CHARS else parsed
  | _ => DEFAULT_STRIP_CHARS

/-- The body of `apply_preferred_scene_name` (everything inside the `try`),
returning the updated `meta`; a Python exception is an `Except.error`. -/
def applyPreferredSceneNameBody (meta config : PyVal) : Except String PyVal := do
  let naming ← pyGet (pyOrElse config (.dict [])) "NAMING" (.dict [])
  let prefer ← pyGet naming "prefer_radarr_scene_name" (.bool false)
  if ¬ prefer.isTruthy then .ok meta
  else do
    let radarrRaw ← pyGet meta "radarr" .none
    let radarr_data := pyOrElse radarrRaw (.dict [])
    let sceneOpt ← extractRadarrSceneName radarr_data
    match sceneOpt with
    | Option.none => .ok meta
    | Option.some scene0 => do
      let nt ← pyGet naming "normalize_scene_tokens" (.bool false)
      let scene1 := if nt.isTruthy then applySceneTokenNormalization scene0 else scene0
      let sf ← pyGet naming "sanitize_filenames" (.bool true)
      let scene2 ←
        if sf.isTruthy then do
          let replRaw ← pyGet naming "space_replacement" (.str DEFAULT_SPACE_REPLACEMENT)
          let replacement := match replRaw with | .str r => r | _ => DEFAULT_SPACE_REPLACEMENT
          let scRaw ← pyGet naming "strip_chars" defaultStripCharsVal
          pure (sanitizeSceneName scene1 (Option.some replacement) (resolveStripChars scRaw))
        else pure scene1
      if scene2 ≠ "" then do
        let origName ← pyGet meta "name" .none
        let newName := appendOriginalExtension origName scene2
        match meta with
        | .dict items =>
          let items1 := assocSet items "name" (.str newName)
          let items2 :=
            if (assocLookup items1 "torrent_name_override").isSome then items1
            else assocSet items1 "torrent_name_override" (.str newName)
          return .dict items2
        | _ => .error "TypeError: object does not support item assignment"
      else .ok meta

/-- `apply_preferred_scene_name(meta, config)`: the body wrapped in
`try: ... except Exception: pass`, so an exception leaves `meta` untouched. -/
def applyPreferredSceneName (meta config : PyVal) : PyVal :=
  match applyPreferredSceneNameBody meta config with
  | .ok newMeta => newMeta
  | .error _ => meta

/-! ### Specification-side definitions

These re-state, in the words of the specification and of the claims, the
values the code is claimed to compute; the theorems below compare them with
the embedded source functions.
-/

/-- The token set of one candidate, as the specification describes it: the
union of the normalized tokens of the six path-like fields (total version,
defined for well-formed candidates). -/
def candidateTokensSpec (item : PyVal) : List String :=
  let movie_file := pyOrElse (pyLookupD item "movieFile" .none) (.dict [])
  [pyLookupD movie_file "originalFilePath" .none,
   pyLookupD movie_file "path" .none,
   pyLookupD movie_file "relativePath" .none,
   pyLookupD item "path" .none,
   pyLookupD item "folder" .none,
   pyLookupD item "folderName" .none].foldl (fun acc v => acc ++ normalizeTokens v) []

/-- The first candidate, in list order, whose token set intersects the hint
token set (the claimed selection rule; `Option.none` when no candidate
matches, which includes every case where the hint yields no tokens). -/
def firstMatchingCandidate (target : List String) (items : List PyVal) : Option PyVal :=
  items.find? (fun item => tokensIntersect target (candidateTokensSpec item))

/-- A candidate's `movieFile` field is absent, falsy, or a dict — the shape
`extract_movie_data` handles without raising. -/
def wfMovieFileField (item : PyVal) : Bool :=
  let mf := pyLookupD item "movieFile" .none
  !mf.isTruthy || mf.isDict

/-- A candidate's `imdbId` field is absent, falsy, or a string whose
`"tt"`-deleted remainder parses as an integer — the shape
`extract_movie_data` handles without raising. -/
def wfImdbField (item : PyVal) : Bool :=
  match pyLookupD item "imdbId" .none with
  | .str s => s = "" || (pyInt (pyReplace s "tt" "")).isSome
  | v => !v.isTruthy

/-- A well-formed candidate record: a dict whose `movieFile` and `imdbId`
fields have the shapes the extraction code handles without raising. -/
def wfCandidate (item : PyVal) : Bool :=
  item.isDict && wfMovieFileField item && wfImdbField item

/-- The token set claim C2 describes: the non-empty strings among the
lower-cased trimmed full value, its final path component, that component
with its extension removed, and — only when the parent directory is
distinct from the path — the parent directory's final component. -/
def claimTokenSet (value : PyVal) : List String :=
  match value with
  | .str s =>
    let t := pyStrip s
    if t = "" then []
    else
      ([pyLower t, pyLower (pathName t), pyLower (pathStem t)]
        ++ (if pathParentDistinct t then [pyLower (pathParentName t)] else [])).filter (· ≠ "")
  | _ => []

/-- Whether `extract_movie_data`'s input fails the non-empty-list guard. -/
def isEmptyOrNonList : PyVal → Bool
  | .list [] => true
  | .list (_ :: _) => false
  | _ => true

/-- The `imdb_id` extraction as the corrected claim describes it: null when
`imdbId` is absent or falsy; otherwise every occurrence of the substring
`"tt"` is deleted and the remainder converted with `int()`, raising
`ValueError` when the remainder is not a valid integer and
`AttributeError` when the truthy field is not a string. -/
def imdbIdAmendedSpec (movie : PyVal) : Except String PyVal :=
  match pyLookupD movie "imdbId" .none with
  | .str s =>
    if s = "" then .ok .none
    else
      match pyInt (pyReplace s "tt" "") with
      | Option.some n => .ok (.int n)
      | Option.none => .error "ValueError: invalid literal for int"
  | v =>
    if v.isTruthy then .error "AttributeError: object has no attribute replace"
    else .ok .none

/-- The effective `prefer_radarr_scene_name` gate of
`apply_preferred_scene_name`: false when the option is falsy or absent, and
also when reading it raises (the surrounding handler then swallows the
error, with the same observable no-op result). -/
def preferFlag (config : PyVal) : Bool :=
  match pyGet (pyOrElse config (.dict [])) "NAMING" (.dict []) with
  | .error _ => false
  | .ok naming =>
    match pyGet naming "prefer_radarr_scene_name" (.bool false) with
    | .error _ => false
    | .ok prefer => prefer.isTruthy

/-- Claim C8's literal reading of a comma-free `strip_chars` string: "split
into individual characters" (all of them, whitespace included). -/
def stripCharsClaimC8 (s : String) : List String :=
  let stripped := pyStrip s
  let parsed :=
    if stripped.data.contains ',' then
      ((pySplit stripped ',').map pyStrip).filter (· ≠ "")
    else
      stripped.data.map (fun c => String.mk [c])
  if parsed.isEmpty then DEFAULT_STRIP_CHARS else parsed

/-- The amended reading of a `strip_chars` string: on commas, split into
trimmed non-empty substrings; otherwise split into the individual
non-whitespace characters; fall back to the default set when the parse
yields nothing. -/
def stripCharsStringAmended (s : String) : List String :=
  let stripped := pyStrip s
  let parsed :=
    if stripped.data.contains ',' then
      ((pySplit stripped ',').map pyStrip).filter (· ≠ "")
    else
      (stripped.data.filter (fun c => ¬ isPySpace c)).map (fun c => String.mk [c])
  if parsed.isEmpty then DEFAULT_STRIP_CHARS else parsed

/-! ### Theorems -/

/-- C3: for an empty list input, or any non-list input, `extract_movie_data`
returns, without raising, the result whose `imdb_id`, `tmdb_id`, `year`,
`release_group` and `movie` are null and whose `genres` is the empty list. -/
theorem extract_empty_or_nonlist_returns_empty_shape (radarr_data filename : PyVal)
    (h : isEmptyOrNonList radarr_data = true) :
    extractMovieData radarr_data filename =
      .ok ⟨.none, .none, .none, .list [], .none, .none⟩ := by
  cases radarr_data with
  | none => rfl
  | bool b => rfl
  | int n => rfl
  | str s => rfl
  | dict items => rfl
  | list xs =>
    cases xs with
    | nil => rfl
    | cons x t => simp [isEmptyOrNonList] at h

/-- Witness for C3 at a non-list input. -/
theorem extract_empty_or_nonlist_returns_empty_shape_witness :
    isEmptyOrNonList (.str "oops") = true ∧
    extractMovieData (.str "oops") .none =
      .ok ⟨.none, .none, .none, .list [], .none, .none⟩ :=
  ⟨rfl, extract_empty_or_nonlist_returns_empty_shape (.str "oops") .none rfl⟩

/-- Counterexample to C4: the `imdb_id` extraction is not fail-soft — with a
candidate whose `imdbId` is `"ttx"` the conversion raises `ValueError`
(`extract_movie_data` has no handler), and `"tt"` is deleted everywhere,
not only as a prefix: `"tt12tt34"` yields `1234` where prefix-stripping
would leave the unparsable `"12tt34"`. -/
theorem imdb_extraction_not_fail_soft_counterexample :
    extractMovieData (.list [.dict [("imdbId", .str "ttx")]]) .none =
      .error "ValueError: invalid literal for int" ∧
    extractMovieData (.list [.dict [("imdbId", .str "tt12tt34")]]) .none =
      .ok ⟨.int 1234, .none, .none, .list [], .none,
           .dict [("imdbId", .str "tt12tt34")]⟩ :=
  ⟨rfl, rfl⟩

/-- C4 (amended): for a chosen candidate record (a dict), the `imdb_id`
result deletes every occurrence of `"tt"` from the `imdbId` string and
converts the remainder with `int()`; it is null when the field is absent or
falsy, raises `ValueError` when the remainder is not a valid integer, and
raises `AttributeError` when the truthy field is not a string — the
exception propagates out of `extract_movie_data` (only the HTTP caller
catches it). -/
theorem imdb_id_extraction_amended (movie : PyVal) (h : movie.isDict = true) :
    imdbIdOf movie = imdbIdAmendedSpec movie := by
  cases movie with
  | none => simp [PyVal.isDict] at h
  | bool b => simp [PyVal.isDict] at h
  | int n => simp [PyVal.isDict] at h
  | str s => simp [PyVal.isDict] at h
  | list xs => simp [PyVal.isDict] at h
  | dict items =>
    simp only [imdbIdOf, imdbIdAmendedSpec, pyGet, pyLookupD, bind, Except.bind]
    cases hl : assocLookup items "imdbId" with
    | none => simp [PyVal.isTruthy]
    | some w =>
      cases w with
      | none => simp [PyVal.isTruthy]
      | bool b => cases b <;> simp [PyVal.isTruthy]
      | int n =>
        by_cases hn : n = 0 <;> simp [hn, PyVal.isTruthy]
      | str s =>
        by_cases hs : s = ""
        · simp [hs, PyVal.isTruthy]
        · simp [hs, PyVal.isTruthy]
      | list xs => cases xs <;> simp [PyVal.isTruthy]
      | dict d => cases d <;> simp [PyVal.isTruthy]

/-- Witness for the amended C4 at a concrete record. -/
theorem imdb_id_extraction_amended_witness :
    PyVal.isDict (.dict [("imdbId", .str "tt99")]) = true ∧
    imdbIdOf (.dict [("imdbId", .str "tt99")]) =
      imdbIdAmendedSpec (.dict [("imdbId", .str "tt99")]) :=
  ⟨rfl, imdb_id_extraction_amended (.dict [("imdbId", .str "tt99")]) rfl⟩

/-- C5: `apply_preferred_scene_name` never raises (the embedding's top-level
handler makes it a total function), and whenever its body raises internally
the whole `meta` mapping — in particular its `name` field — is returned
unchanged. -/
theorem apply_scene_name_fail_silent (meta config : PyVal)
    (h : ∃ e, applyPreferredSceneNameBody meta config = Except.error e) :
    applyPreferredSceneName meta config = meta ∧
    pyLookupD (applyPreferredSceneName meta config) "name" .none =
      pyLookupD meta "name" .none := by
  obtain ⟨e, he⟩ := h
  simp [applyPreferredSceneName, he]

/-- Witness for C5: a config whose `NAMING` entry is a string makes the body
raise `AttributeError`, and `meta` is returned unchanged. -/
theorem apply_scene_name_fail_silent_witness :
    applyPreferredSceneName (.dict [("name", .str "Original")])
      (.dict [("NAMING", .str "broken")]) = .dict [("name", .str "Original")] :=
  (apply_scene_name_fail_silent (.dict [("name", .str "Original")])
    (.dict [("NAMING", .str "broken")])
    ⟨"AttributeError: object has no attribute get", rfl⟩).1

/-- C6: when the effective `prefer_radarr_scene_name` gate is off (the
option is falsy or absent — or even unreadable), `apply_preferred_scene_name`
is a no-op: the returned `meta` is the input `meta`, unchanged in every
field. -/
theorem apply_scene_name_noop_when_disabled (meta config : PyVal)
    (h : preferFlag config = false) :
    applyPreferredSceneName meta config = meta := by
  unfold preferFlag at h
  unfold applyPreferredSceneName applyPreferredSceneNameBody
  cases hA : pyGet (pyOrElse config (.dict [])) "NAMING" (.dict []) with
  | error e => simp [hA, bind, Except.bind]
  | ok naming =>
    simp only [hA] at h
    cases hB : pyGet naming "prefer_radarr_scene_name" (.bool false) with
    | error e => simp [hA, hB, bind, Except.bind]
    | ok prefer =>
      simp only [hB] at h
      simp [hA, hB, bind, Except.bind, h]

/-- Witness for C6: the gate set to `False` leaves a meta with a scene name
available byte-identical. -/
theorem apply_scene_name_noop_when_disabled_witness :
    applyPreferredSceneName
      (.dict [("name", .str "Original"),
              ("radarr", .dict [("movieFile", .dict [("sceneName", .str "SCENE")])])])
      (.dict [("NAMING", .dict [("prefer_radarr_scene_name", .bool false)])]) =
      .dict [("name", .str "Original"),
             ("radarr", .dict [("movieFile", .dict [("sceneName", .str "SCENE")])])] :=
  apply_scene_name_noop_when_disabled _ _ rfl

/-- C7: token normalization applies the literal replacements `"DD+" → "DDP"`
then `"HDR." → "HDR10."` in that order; before sanitization; on the claim's
example configuration the resulting name is `"Release.DDP.HDR10."`. -/
theorem scene_token_normalization_order_and_example :
    (∀ scene_name : String,
        applySceneTokenNormalization scene_name =
          pyReplace (pyReplace scene_name "DD+" "DDP") "HDR." "HDR10.") ∧
    pyLookupD
        (applyPreferredSceneName
          (.dict [("radarr", .dict [("movieFile", .dict [("sceneName", .str "Release DD+ HDR.")])])])
          (.dict [("NAMING", .dict [("prefer_radarr_scene_name", .bool true),
                                    ("normalize_scene_tokens", .bool true),
                                    ("sanitize_filenames", .bool true)])]))
        "name" .none = .str "Release.DDP.HDR10." :=
  ⟨fun _ => rfl, rfl⟩

/-- Projecting the trim-and-drop-empties comprehension of the comma branch
into map-then-filter form. -/
theorem filterMap_strip_eq_filter_map (l : List String) :
    l.filterMap (fun item =>
        let t := pyStrip item
        if t ≠ "" then Option.some t else Option.none) =
      (l.map pyStrip).filter (· ≠ "") := by
  induction l with
  | nil => rfl
  | cons x t ih =>
    by_cases hx : pyStrip x = "" <;>
      simpa [List.filterMap_cons, List.filter_cons, hx] using ih

/-- Counterexample to C8: a comma-free `strip_chars` string is not "split
into individual characters" — whitespace characters are dropped.  On
`"{ }"` the code keeps `{"{", "}"}` while the claim's reading keeps the
space too, and the difference is observable: with the claimed set the
spaces of `"a b"` would be stripped (giving `"ab"`), with the code's set
they are replaced (giving `"a.b"`). -/
theorem strip_chars_charsplit_counterexample :
    resolveStripChars (.str "\x7b \x7d") ≠ stripCharsClaimC8 "\x7b \x7d" ∧
    sanitizeSceneName "a b" (Option.some ".") (resolveStripChars (.str "\x7b \x7d")) = "a.b" ∧
    sanitizeSceneName "a b" (Option.some ".") (stripCharsClaimC8 "\x7b \x7d") = "ab" := by
  refine ⟨?_, rfl, rfl⟩
  decide

/-- C8 (amended): a `strip_chars` string with a comma is split on commas
into trimmed non-empty (possibly multi-character) substrings; without a
comma it is split into its individual non-whitespace characters; an empty
parse and an unrecognized type both fall back to the default strip set; and
the claim's example configuration yields `"Scene.Name.Test"`. -/
theorem strip_chars_string_forms_amended :
    (∀ s : String, resolveStripChars (.str s) = stripCharsStringAmended s) ∧
    (∀ n : Int, resolveStripChars (.int n) = DEFAULT_STRIP_CHARS) ∧
    resolveStripChars .none = DEFAULT_STRIP_CHARS ∧
    pyLookupD
        (applyPreferredSceneName
          (.dict [("radarr", .dict [("movieFile", .dict [("sceneName", .str "Scene Name [Test]")])])])
          (.dict [("NAMING", .dict [("prefer_radarr_scene_name", .bool true),
                                    ("strip_chars", .str "\x7b, \x7d,[, ],(, )")])]))
        "name" .none = .str "Scene.Name.Test" := by
  refine ⟨?_, fun _ => rfl, rfl, rfl⟩
  intro s
  simp only [resolveStripChars, stripCharsStringAmended, filterMap_strip_eq_filter_map]

/-- C9: `_append_original_extension` appends the original name's extension
exactly when the original is a string with a (splitext) extension that the
new name does not already carry case-insensitively; the result then always
ends with that extension (case-insensitively); a non-string original leaves
the new name unchanged. -/
theorem append_extension_characterization :
    (∀ s new_name : String,
        appendOriginalExtension (.str s) new_name =
          (if (pySplitext (pyStrip s)).2 ≠ "" ∧
              ¬ pyEndsWithCI new_name (pySplitext (pyStrip s)).2 = true
           then new_name ++ (pySplitext (pyStrip s)).2 else new_name)) ∧
    (∀ s new_name : String, (pySplitext (pyStrip s)).2 ≠ "" →
        pyEndsWithCI (appendOriginalExtension (.str s) new_name)
          (pySplitext (pyStrip s)).2 = true) ∧
    (∀ (v : PyVal) (new_name : String), v.isStr = false →
        appendOriginalExtension v new_name = new_name) := by
  refine ⟨fun s new_name => rfl, fun s new_name hext => ?_, fun v new_name hv => ?_⟩
  · by_cases hE : pyEndsWithCI new_name (pySplitext (pyStrip s)).2 = true
    · simp [appendOriginalExtension, hE]
    · simp only [appendOriginalExtension, hext, hE, not_false_eq_true, and_self, if_true,
        ne_eq, not_false_iff]
      simp only [pyEndsWithCI, pyLower, String.data_append, List.map_append]
      simp [List.isSuffixOf_iff_suffix]
  · cases v with
    | str s => simp [PyVal.isStr] at hv
    | none => rfl
    | bool b => rfl
    | int n => rfl
    | list xs => rfl
    | dict d => rfl

/-- Witness for C9 at concrete inputs: `"Old.mkv"`'s extension is appended
to `"New.Name"`, and a non-string original is left alone. -/
theorem append_extension_characterization_witness :
    pyEndsWithCI (appendOriginalExtension (.str "Old.mkv") "New.Name")
      (pySplitext (pyStrip "Old.mkv")).2 = true ∧
    appendOriginalExtension (.int 7) "New.Name" = "New.Name" :=
  ⟨append_extension_characterization.2.1 "Old.mkv" "New.Name" (by decide),
   append_extension_characterization.2.2 (.int 7) "New.Name" rfl⟩

/-- A list-valued `strip_chars` whose elements contain no non-empty string
filters to the empty collection. -/
theorem resolveStripChars_list_no_nonempty_string (xs : List PyVal)
    (h : xs.all (fun v => !(v.isStr && v.isTruthy)) = true) :
    resolveStripChars (.list xs) = [] := by
  induction xs with
  | nil => rfl
  | cons v t ih =>
    simp only [List.all_cons, Bool.and_eq_true] at h
    have hv := h.1
    have ht := ih h.2
    simp only [resolveStripChars] at ht ⊢
    cases v with
    | str s =>
      have hs : s = "" := by simpa [PyVal.isStr, PyVal.isTruthy] using hv
      subst hs
      simpa [List.filterMap_cons] using ht
    | none => simpa [List.filterMap_cons] using ht
    | bool b => simpa [List.filterMap_cons] using ht
    | int n => simpa [List.filterMap_cons] using ht
    | list ys => simpa [List.filterMap_cons] using ht
    | dict d => simpa [List.filterMap_cons] using ht

/-- C10: when `strip_chars` is a sequence with no non-empty strings, the
filtered strip collection is empty and no stripping happens at all — the
default set is NOT substituted — while space replacement still applies;
this is asymmetric with the string form, whose empty parse (here `" "`)
falls back to the default set.  Concretely, `strip_chars=[1]` leaves the
brackets of `"A [B]"` in place: the name becomes `"A.[B]"`. -/
theorem strip_list_without_strings_strips_nothing (xs : List PyVal)
    (h : xs.all (fun v => !(v.isStr && v.isTruthy)) = true) :
    resolveStripChars (.list xs) = [] ∧
    (∀ scene replacement : String,
        sanitizeSceneName scene (Option.some replacement) (resolveStripChars (.list xs)) =
          pyReplace scene " " replacement) ∧
    resolveStripChars (.str " ") = DEFAULT_STRIP_CHARS ∧
    pyLookupD
        (applyPreferredSceneName
          (.dict [("radarr", .dict [("movieFile", .dict [("sceneName", .str "A [B]")])])])
          (.dict [("NAMING", .dict [("prefer_radarr_scene_name", .bool true),
                                    ("strip_chars", .list [.int 1])])]))
        "name" .none = .str "A.[B]" := by
  have he := resolveStripChars_list_no_nonempty_string xs h
  refine ⟨he, fun scene replacement => ?_, rfl, rfl⟩
  rw [he]
  rfl

/-- Witness for C10 at the concrete list `[1, ""]`. -/
theorem strip_list_without_strings_strips_nothing_witness :
    resolveStripChars (.list [.int 1, .str ""]) = [] ∧
    sanitizeSceneName "A [B]" (Option.some ".") (resolveStripChars (.list [.int 1, .str ""])) =
      pyReplace "A [B]" " " "." :=
  ⟨(strip_list_without_strings_strips_nothing [.int 1, .str ""] rfl).1,
   (strip_list_without_strings_strips_nothing [.int 1, .str ""] rfl).2.1 "A [B]" "."⟩

/-- Lowercasing is length-preserving, so only the empty string lowers to the
empty string. -/
theorem pyLower_eq_empty_iff (s : String) : pyLower s = "" ↔ s = "" := by
  constructor
  · intro h
    have hd : s.data.map pyLowerChar = ([] : List Char) := congrArg String.data h
    have hnil : s.data = [] := List.map_eq_nil_iff.mp hd
    cases s with
    | mk d => rw [show d = [] from hnil]
  · intro h
    subst h
    rfl

/-- C2: `_normalize_tokens` produces exactly the claimed token collection —
empty for a non-string or whitespace-only value, and otherwise the
non-empty strings among the lower-cased trimmed value, its final path
component, that component without its extension, and (when the parent
directory is distinct from the path) the parent directory's final
component. -/
theorem normalize_tokens_eq_claimed_set (value : PyVal) :
    normalizeTokens value = claimTokenSet value := by
  cases value with
  | none => rfl
  | bool b => rfl
  | int n => rfl
  | list xs => rfl
  | dict d => rfl
  | str s =>
    by_cases h0 : pyStrip s = ""
    · simp [normalizeTokens, claimTokenSet, h0]
    · have hfull : pyLower (pyStrip s) ≠ "" := fun hc => h0 ((pyLower_eq_empty_iff _).mp hc)
      by_cases hstem : pathStem (pyStrip s) = ""
      · by_cases hpd : pathParentDistinct (pyStrip s) = true <;>
          simp [normalizeTokens, claimTokenSet, h0, hstem, hpd, hfull,
            show pyLower "" = "" from rfl, List.filter_cons, List.filter_append]
      · by_cases hpd : pathParentDistinct (pyStrip s) = true <;>
          simp [normalizeTokens, claimTokenSet, h0, hstem, hpd, hfull,
            List.filter_cons, List.filter_append]

/-- `dict.get` never raises on an actual dict, and agrees with the total
lookup. -/
theorem pyGet_of_isDict (v : PyVal) (h : v.isDict = true) (key : String) (d : PyVal) :
    pyGet v key d = .ok (pyLookupD v key d) := by
  cases v with
  | dict items => rfl
  | none => simp [PyVal.isDict] at h
  | bool b => simp [PyVal.isDict] at h
  | int n => simp [PyVal.isDict] at h
  | str s => simp [PyVal.isDict] at h
  | list xs => simp [PyVal.isDict] at h

/-- A well-formed candidate is a dict. -/
theorem wfCandidate_isDict (item : PyVal) (h : wfCandidate item = true) :
    item.isDict = true := by
  simp only [wfCandidate, Bool.and_eq_true] at h
  exact h.1.1

/-- The `movie_file = item.get("movieFile") or {}` value of a well-formed
candidate is a dict. -/
theorem wfCandidate_movieFile_isDict (item : PyVal) (h : wfCandidate item = true) :
    (pyOrElse (pyLookupD item "movieFile" .none) (.dict [])).isDict = true := by
  simp only [wfCandidate, Bool.and_eq_true, wfMovieFileField] at h
  have hm := h.1.2
  simp only [pyOrElse]
  by_cases ht : (pyLookupD item "movieFile" PyVal.none).isTruthy = true
  · simp only [ht, if_true]
    simpa [ht] using hm
  · simp [ht, PyVal.isDict]

/-- On a well-formed candidate, the token-collection loop of
`_match_movie_from_filename` computes the specification's candidate token
set without raising. -/
theorem candidateTokens_eq_spec (item : PyVal) (h : wfCandidate item = true) :
    candidateTokens item = .ok (candidateTokensSpec item) := by
  have hd := wfCandidate_isDict item h
  have hmf := wfCandidate_movieFile_isDict item h
  simp only [candidateTokens, candidateValues, candidateTokensSpec, bind, Except.bind,
    pyGet_of_isDict item hd, pyGet_of_isDict _ hmf]
  rfl

/-- A candidate whose specification token set intersects anything is a
non-empty dict, hence truthy (so the `or radarr_data[0]` fallback does not
fire on a matched candidate). -/
theorem candidate_truthy_of_match (item : PyVal) (target : List String)
    (hd : item.isDict = true)
    (h : tokensIntersect target (candidateTokensSpec item) = true) :
    item.isTruthy = true := by
  cases item with
  | dict its =>
    cases its with
    | nil =>
      exfalso
      simp [candidateTokensSpec, pyLookupD, assocLookup, pyOrElse, PyVal.isTruthy,
        tokensIntersect, normalizeTokens, List.any_eq_true] at h
    | cons a t => simp [PyVal.isTruthy]
  | none => simp [PyVal.isDict] at hd
  | bool b => simp [PyVal.isDict] at hd
  | int n => simp [PyVal.isDict] at hd
  | str s => simp [PyVal.isDict] at hd
  | list xs => simp [PyVal.isDict] at hd

/-- A falsy filename value contributes no tokens (so the `if not filename`
early return is subsumed by the empty-token-set fallback). -/
theorem normalizeTokens_falsy (v : PyVal) (h : v.isTruthy = false) :
    normalizeTokens v = [] := by
  cases v with
  | str s =>
    have hs : s = "" := by simpa [PyVal.isTruthy] using h
    subst hs
    rfl
  | none => rfl
  | bool b => rfl
  | int n => rfl
  | list xs => rfl
  | dict d => rfl

/-- An empty hint token set matches no candidate. -/
theorem firstMatchingCandidate_nil_target (items : List PyVal) :
    firstMatchingCandidate [] items = Option.none := by
  rw [firstMatchingCandidate, List.find?_eq_none]
  intro x _
  simp [tokensIntersect]

/-- The candidate loop returns exactly the specification's first
intersecting candidate (as a Python `None` when there is none). -/
theorem findMatchingMovie_eq_spec (target : List String) (items : List PyVal)
    (h : items.all wfCandidate = true) :
    findMatchingMovie target items =
      .ok ((firstMatchingCandidate target items).getD .none) := by
  induction items with
  | nil => rfl
  | cons item rest ih =>
    simp only [List.all_cons, Bool.and_eq_true] at h
    rw [findMatchingMovie]
    simp only [bind, Except.bind, candidateTokens_eq_spec item h.1]
    by_cases hint : tokensIntersect target (candidateTokensSpec item) = true
    · rw [if_pos hint]
      simp [firstMatchingCandidate, List.find?_cons, hint]
    · rw [if_neg hint, ih h.2]
      simp only [Bool.not_eq_true] at hint
      simp [firstMatchingCandidate, List.find?_cons, hint]

/-- `_match_movie_from_filename` returns the specification's first
intersecting candidate on well-formed input. -/
theorem matchMovie_eq_spec (items : List PyVal) (filename : PyVal)
    (h : items.all wfCandidate = true) :
    matchMovieFromFilename items filename =
      .ok ((firstMatchingCandidate (normalizeTokens filename) items).getD .none) := by
  unfold matchMovieFromFilename
  by_cases ht : filename.isTruthy = true
  · rw [if_neg (not_not_intro ht)]
    by_cases he : normalizeTokens filename = []
    · rw [if_pos (List.isEmpty_iff.mpr he)]
      simp [he, firstMatchingCandidate_nil_target]
    · rw [if_neg (fun hcon => he (List.isEmpty_iff.mp hcon))]
      exact findMatchingMovie_eq_spec _ items h
  · simp only [Bool.not_eq_true] at ht
    rw [if_pos (by simp [ht])]
    rw [normalizeTokens_falsy filename ht, firstMatchingCandidate_nil_target]
    rfl

/-- The `release_group` projection never raises on a well-formed candidate. -/
theorem releaseGroupOf_ok (movie : PyVal) (h : wfCandidate movie = true) :
    ∃ rg, releaseGroupOf movie = .ok rg := by
  have hd := wfCandidate_isDict movie h
  have hmf := wfCandidate_movieFile_isDict movie h
  unfold releaseGroupOf
  rw [pyGet_of_isDict movie hd]
  simp only [bind, Except.bind]
  by_cases ht : (pyLookupD movie "movieFile" .none).isTruthy = true
  · rw [if_pos ht]
    have hmfd : (pyLookupD movie "movieFile" .none).isDict = true := by
      simpa [pyOrElse, ht] using hmf
    rw [pyGet_of_isDict _ hmfd]
    simp only [bind, Except.bind]
    by_cases hrg :
        (pyLookupD (pyLookupD movie "movieFile" .none) "releaseGroup" .none).isTruthy = true
    · rw [if_pos hrg]
      exact ⟨_, rfl⟩
    · rw [if_neg hrg]
      exact ⟨_, rfl⟩
  · rw [if_neg ht]
    exact ⟨_, rfl⟩

/-- The `imdb_id` projection never raises on a well-formed candidate. -/
theorem imdbIdOf_ok (movie : PyVal) (h : wfCandidate movie = true) :
    ∃ v, imdbIdOf movie = .ok v := by
  cases movie with
  | none => simp [wfCandidate, PyVal.isDict] at h
  | bool b => simp [wfCandidate, PyVal.isDict] at h
  | int n => simp [wfCandidate, PyVal.isDict] at h
  | str s => simp [wfCandidate, PyVal.isDict] at h
  | list xs => simp [wfCandidate, PyVal.isDict] at h
  | dict its =>
    have himdb : wfImdbField (.dict its) = true := by
      simp only [wfCandidate, Bool.and_eq_true] at h
      exact h.2
    unfold imdbIdOf
    simp only [pyGet, bind, Except.bind]
    by_cases ht : ((assocLookup its "imdbId").getD .none).isTruthy = true
    · rw [if_pos ht]
      cases hl : assocLookup its "imdbId" with
      | none =>
        rw [hl] at ht
        simp [PyVal.isTruthy] at ht
      | some w =>
        unfold wfImdbField at himdb
        simp only [pyLookupD, hl, Option.getD_some] at himdb ht ⊢
        cases w with
        | str s =>
          have hs : ¬ s = "" := by simpa [PyVal.isTruthy] using ht
          have hsome : (pyInt (pyReplace s "tt" "")).isSome = true := by
            simpa [hs] using himdb
          obtain ⟨n, hn⟩ := Option.isSome_iff_exists.mp hsome
          refine ⟨.int n, ?_⟩
          show (match pyInt (pyReplace s "tt" "") with
                | Option.some n => Except.ok (PyVal.int n)
                | Option.none =>
                  Except.error "ValueError: invalid literal for int") = Except.ok (.int n)
          rw [hn]
        | none => simp [PyVal.isTruthy] at ht
        | bool b => simp [ht] at himdb
        | int n => simp [ht] at himdb
        | list xs => simp [ht] at himdb
        | dict d => simp [ht] at himdb
    · rw [if_neg ht]
      exact ⟨_, rfl⟩

/-- C1: on a non-empty list of well-formed candidates, `extract_movie_data`
selects the first candidate, in original list order, whose token set
intersects the hint's token set, and falls back to the candidate at index 0
when no candidate intersects or the hint yields no tokens (including an
absent hint); there is no scoring of overlap size. -/
theorem extract_matcher_first_in_order (x : PyVal) (xs : List PyVal) (filename : PyVal)
    (h : (x :: xs).all wfCandidate = true) :
    ∃ r : ExtractResult,
      extractMovieData (.list (x :: xs)) filename = .ok r ∧
      r.movie = (firstMatchingCandidate (normalizeTokens filename) (x :: xs)).getD x := by
  have hall := List.all_eq_true.mp h
  have hwx : wfCandidate x = true := hall x (List.mem_cons_self x xs)
  simp only [extractMovieData]
  rw [matchMovie_eq_spec (x :: xs) filename h]
  simp only [bind, Except.bind]
  cases hm : firstMatchingCandidate (normalizeTokens filename) (x :: xs) with
  | none =>
    simp only [Option.getD_none]
    rw [if_neg (by simp [PyVal.isTruthy])]
    obtain ⟨rg, hrg⟩ := releaseGroupOf_ok x hwx
    obtain ⟨imdb, himdb⟩ := imdbIdOf_ok x hwx
    have hdx := wfCandidate_isDict x hwx
    rw [hrg, himdb, pyGet_of_isDict x hdx, pyGet_of_isDict x hdx, pyGet_of_isDict x hdx]
    exact ⟨_, rfl, rfl⟩
  | some m =>
    have hm' : (x :: xs).find?
        (fun item => tokensIntersect (normalizeTokens filename) (candidateTokensSpec item)) =
        Option.some m := hm
    have hpred := List.find?_some hm'
    have hmem := List.mem_of_find?_eq_some hm'
    have hwm : wfCandidate m = true := hall m hmem
    have htr : m.isTruthy = true :=
      candidate_truthy_of_match m (normalizeTokens filename) (wfCandidate_isDict m hwm) hpred
    simp only [Option.getD_some]
    rw [if_pos htr]
    obtain ⟨rg, hrg⟩ := releaseGroupOf_ok m hwm
    obtain ⟨imdb, himdb⟩ := imdbIdOf_ok m hwm
    have hdm := wfCandidate_isDict m hwm
    rw [hrg, himdb, pyGet_of_isDict m hdm, pyGet_of_isDict m hdm, pyGet_of_isDict m hdm]
    exact ⟨_, rfl, rfl⟩

/-- Witness for C1 at the specification's example: the hint matches only the
second candidate (via its original file path's parent folder), so the
matcher returns it despite the near-miss first candidate. -/
theorem extract_matcher_first_in_order_witness :
    (∃ r : ExtractResult,
      extractMovieData
          (.list [.dict [("folder", .str "The Balloonists (2025)")],
                  .dict [("movieFile",
                          .dict [("originalFilePath",
                                  .str "The Balloonist (2025)/x.mkv")])]])
          (.str "The Balloonist (2025)") = .ok r ∧
      r.movie =
        (firstMatchingCandidate (normalizeTokens (.str "The Balloonist (2025)"))
            [.dict [("folder", .str "The Balloonists (2025)")],
             .dict [("movieFile",
                     .dict [("originalFilePath",
                             .str "The Balloonist (2025)/x.mkv")])]]).getD
          (.dict [("folder", .str "The Balloonists (2025)")])) ∧
    firstMatchingCandidate (normalizeTokens (.str "The Balloonist (2025)"))
        [.dict [("folder", .str "The Balloonists (2025)")],
         .dict [("movieFile",
                 .dict [("originalFilePath",
                         .str "The Balloonist (2025)/x.mkv")])]] =
      Option.some
        (.dict [("movieFile",
                 .dict [("originalFilePath",
                         .str "The Balloonist (2025)/x.mkv")])]) :=
  ⟨extract_matcher_first_in_order
      (.dict [("folder", .str "The Balloonists (2025)")])
      [.dict [("movieFile",
               .dict [("originalFilePath", .str "The Balloonist (2025)/x.mkv")])]]
      (.str "The Balloonist (2025)") rfl,
   rfl⟩
